import Mathlib

/-!
Verification of the navigation and spatial-interaction subsystem of the
CV-3D walkthrough: the player movement/camera controller (`Player.ts`),
the proximity-based interaction detector (`Door.isNear`,
`ProjectCube.isNear`, `Teleporter.isNear` and the per-frame door scan in
`main.ts`), the procedural room/door layout generator
(`calculateRoomDimensions`, `calculateDoorPosition`) and the
hall/sub-room transition state machine (`RoomManager.ts`).

Numbers of the source are modelled as exact reals (for the continuous
player/camera math) and exact rationals (for the discrete room-manager
state machine); floating-point rounding is out of scope.
-/

namespace CV3D

/-- A 3D vector, mirroring `THREE.Vector3` as used by the source. -/
structure Vec3 where
  x : ℝ
  y : ℝ
  z : ℝ

/-- Euclidean distance, mirroring `THREE.Vector3.distanceTo`. -/
noncomputable def distanceTo (a b : Vec3) : ℝ :=
  Real.sqrt ((a.x - b.x) ^ 2 + (a.y - b.y) ^ 2 + (a.z - b.z) ^ 2)

/-- Componentwise linear interpolation, mirroring `THREE.Vector3.lerp`:
`this.x += (v.x - this.x) * alpha` for each component.  Note that
`THREE.Vector3.lerp` does not clamp `alpha`. -/
def lerpVec (a b : Vec3) (alpha : ℝ) : Vec3 :=
  ⟨a.x + (b.x - a.x) * alpha, a.y + (b.y - a.y) * alpha, a.z + (b.z - a.z) * alpha⟩

/-- Vector length, mirroring `THREE.Vector3.length`. -/
noncomputable def vecLength (v : Vec3) : ℝ :=
  Real.sqrt (v.x ^ 2 + v.y ^ 2 + v.z ^ 2)

/-- Normalization, mirroring `THREE.Vector3.normalize`, which divides by
`this.length() || 1`. -/
noncomputable def normalize (v : Vec3) : Vec3 :=
  let l := vecLength v
  let l' := if l = 0 then 1 else l
  ⟨v.x / l', v.y / l', v.z / l'⟩

/-- The first wraparound loop of `Player.lerpAngle`:
`while (diff > Math.PI) diff -= Math.PI * 2`. -/
noncomputable def wrapDown (d : ℝ) : ℝ :=
  if h : Real.pi < d then wrapDown (d - 2 * Real.pi) else d
termination_by (⌈(d - Real.pi) / (2 * Real.pi)⌉).toNat
decreasing_by
  have hpi : (0 : ℝ) < Real.pi := Real.pi_pos
  have h2pi : (0 : ℝ) < 2 * Real.pi := by linarith
  have harg : (d - 2 * Real.pi - Real.pi) / (2 * Real.pi)
      = (d - Real.pi) / (2 * Real.pi) - 1 := by
    field_simp
    ring
  have hk : 0 < ⌈(d - Real.pi) / (2 * Real.pi)⌉ :=
    Int.ceil_pos.mpr (div_pos (by linarith) h2pi)
  rw [harg, Int.ceil_sub_one]
  omega

/-- The second wraparound loop of `Player.lerpAngle`:
`while (diff < -Math.PI) diff += Math.PI * 2`. -/
noncomputable def wrapUp (d : ℝ) : ℝ :=
  if h : d < -Real.pi then wrapUp (d + 2 * Real.pi) else d
termination_by (⌈(-d - Real.pi) / (2 * Real.pi)⌉).toNat
decreasing_by
  have hpi : (0 : ℝ) < Real.pi := Real.pi_pos
  have h2pi : (0 : ℝ) < 2 * Real.pi := by linarith
  have harg : (-(d + 2 * Real.pi) - Real.pi) / (2 * Real.pi)
      = (-d - Real.pi) / (2 * Real.pi) - 1 := by
    field_simp
    ring
  have hk : 0 < ⌈(-d - Real.pi) / (2 * Real.pi)⌉ :=
    Int.ceil_pos.mpr (div_pos (by linarith) h2pi)
  rw [harg, Int.ceil_sub_one]
  omega

/-- The wrapped difference computed by `Player.lerpAngle`: both
wraparound loops applied in sequence. -/
noncomputable def wrapDiff (d : ℝ) : ℝ := wrapUp (wrapDown d)

/-- `Player.lerpAngle(from, to, t)`: wraps `to - from` and returns
`from + diff * Math.min(t, 1)`. -/
noncomputable def lerpAngle (a b t : ℝ) : ℝ :=
  a + wrapDiff (b - a) * min t 1

/-- `Math.atan2(y, x)`, the standard two-argument arctangent of the JS
runtime, used by `Player.update` for the target facing. -/
noncomputable def atan2 (y x : ℝ) : ℝ :=
  if 0 < x then Real.arctan (y / x)
  else if x < 0 ∧ 0 ≤ y then Real.arctan (y / x) + Real.pi
  else if x < 0 ∧ y < 0 then Real.arctan (y / x) - Real.pi
  else if x = 0 ∧ 0 < y then Real.pi / 2
  else if x = 0 ∧ y < 0 then -(Real.pi / 2)
  else 0

/-- The mutable player state of `Player.ts`: the avatar position
(`this.group.position`), the character facing, the horizontal camera
orbit angle, and the camera position (`this.camera.position`).
The configuration used by `main.ts` is `moveSpeed = 5` with the
defaults `cameraFollowSpeed = 2`, `turnSpeed = 10`, `cameraDistance = 5`,
`cameraHeight = 3`. -/
structure PState where
  position : Vec3
  characterFacing : ℝ
  cameraAngle : ℝ
  camera : Vec3

/-- `Player.updateCamera`: the orbit target is
`position + (sin angle, 0, cos angle) * 5 + (0, 3, 0)`; when `immediate`
the camera snaps there, otherwise it is lerped with factor `5 * delta`
(the source passes `5 * delta` to `THREE.Vector3.lerp` with no clamp). -/
noncomputable def updateCameraPos (position camera : Vec3) (cameraAngle delta : ℝ)
    (immediate : Bool) : Vec3 :=
  let cameraX := position.x + Real.sin cameraAngle * 5
  let cameraZ := position.z + Real.cos cameraAngle * 5
  let cameraY := position.y + 3
  if immediate then ⟨cameraX, cameraY, cameraZ⟩
  else lerpVec camera ⟨cameraX, cameraY, cameraZ⟩ (5 * delta)

/-- The camera-relative movement direction built by `Player.update`
from the input vector `(mx, mz)` (not yet normalized; the `y` component
stays 0). -/
noncomputable def moveDirection (cameraAngle mx mz : ℝ) : Vec3 :=
  ⟨Real.sin cameraAngle * mz + Real.sin (cameraAngle + Real.pi / 2) * mx, 0,
   Real.cos cameraAngle * mz + Real.cos (cameraAngle + Real.pi / 2) * mx⟩

/-- The candidate position of `Player.update`:
`position + normalize(moveDirection) * moveSpeed * delta` with
`moveSpeed = 5`. -/
noncomputable def candidatePosition (s : PState) (mx mz delta : ℝ) : Vec3 :=
  let dir := normalize (moveDirection s.cameraAngle mx mz)
  ⟨s.position.x + dir.x * 5 * delta,
   s.position.y + dir.y * 5 * delta,
   s.position.z + dir.z * 5 * delta⟩

/-- The target facing of `Player.update`: pure backward input
(`movement.z > 0 && movement.x === 0`) faces the reverse camera heading
exactly; any other movement faces `atan2(-direction.x, -direction.z)`. -/
noncomputable def targetFacing (cameraAngle mx mz : ℝ) (ndir : Vec3) : ℝ :=
  if 0 < mz ∧ mx = 0 then cameraAngle + Real.pi
  else atan2 (-ndir.x) (-ndir.z)

/-- `Player.update(delta)`: one frame step of the movement controller.
`(mx, mz)` is `input.getMovement()`, `isMoving` is `input.isMoving()`,
`collisionChecker` is `this.collisionChecker` (`none` when unset, the
fail-open default).  The collision test guards only the position copy;
the facing and camera-angle smoothing run regardless.  The final camera
update is `updateCamera(delta, false)`. -/
noncomputable def update (s : PState) (mx mz : ℝ) (isMoving : Bool)
    (collisionChecker : Option (Vec3 → Bool)) (delta : ℝ) : PState :=
  let s1 :=
    if isMoving then
      let dir := moveDirection s.cameraAngle mx mz
      if 0 < vecLength dir then
        let ndir := normalize dir
        let newPosition := candidatePosition s mx mz delta
        let blocked :=
          match collisionChecker with
          | none => false
          | some checker => checker newPosition
        let position' := if blocked then s.position else newPosition
        let tf := targetFacing s.cameraAngle mx mz ndir
        let characterFacing' := lerpAngle s.characterFacing tf (10 * delta)
        let cameraAngle' :=
          if mz < 0 then lerpAngle s.cameraAngle characterFacing' (2 * delta)
          else if mx ≠ 0 then lerpAngle s.cameraAngle characterFacing' (2 * 0.6 * delta)
          else s.cameraAngle
        { position := position', characterFacing := characterFacing',
          cameraAngle := cameraAngle', camera := s.camera }
      else s
    else s
  { s1 with camera := updateCameraPos s1.position s1.camera s1.cameraAngle delta false }

/-- A door of the hall, as far as the proximity scan observes it: its
`id` and its `group.position`. -/
structure Door where
  id : String
  position : Vec3

/-- `Door.isNear(position, threshold)`: clones the door position, forces
its `y` to the query's `y`, and compares the Euclidean distance with a
strict `<`. -/
noncomputable def Door.isNear (d : Door) (position : Vec3) (threshold : ℝ) : Bool :=
  let doorPos : Vec3 := ⟨d.position.x, position.y, d.position.z⟩
  decide (distanceTo position doorPos < threshold)

/-- A project-exhibit cube, as far as the proximity scan observes it:
its payload project name and its `group.position`. -/
structure ProjectCube where
  projet : String
  position : Vec3

/-- `ProjectCube.isNear(position, threshold)`: same height-ignoring
strict comparison as `Door.isNear`. -/
noncomputable def ProjectCube.isNear (c : ProjectCube) (position : Vec3)
    (threshold : ℝ) : Bool :=
  let cubePos : Vec3 := ⟨c.position.x, position.y, c.position.z⟩
  decide (distanceTo position cubePos < threshold)

/-- The return teleporter, as far as the proximity scan observes it. -/
structure Teleporter where
  position : Vec3

/-- `Teleporter.isNear(position, threshold)`: same height-ignoring
strict comparison as `Door.isNear`. -/
noncomputable def Teleporter.isNear (tp : Teleporter) (position : Vec3)
    (threshold : ℝ) : Bool :=
  let teleporterPos : Vec3 := ⟨tp.position.x, position.y, tp.position.z⟩
  decide (distanceTo position teleporterPos < threshold)

/-- The per-frame door scan of `engine.onUpdate` in `main.ts`:
`let foundDoor = null; for (const door of doors) if (door.isNear(playerPos, 2.5)) foundDoor = door;`
(the near branch also highlights the door; the candidate variable is
overwritten on every near door and the loop does not break). -/
noncomputable def doorScan (doors : List Door) (playerPos : Vec3) : Option Door :=
  doors.foldl
    (fun foundDoor door => if door.isNear playerPos 2.5 then some door else foundDoor)
    none

/-- A position with exact rational coordinates; the room-manager
teleport targets are exact constants, so the discrete state machine is
modelled over ℚ to stay executable. -/
structure QVec3 where
  x : ℚ
  y : ℚ
  z : ℚ
deriving DecidableEq

/-- A period record, as far as the room-transition state machine
observes it: only its `id` is read by `RoomManager` (the remaining
fields feed mesh construction, which is out of scope). -/
structure Periode where
  id : String
deriving DecidableEq

/-- A constructed period sub-room (`new PeriodRoom({ periode })`). -/
structure PeriodRoom where
  periode : Periode
deriving DecidableEq

/-- `PeriodRoom.getEntryPosition()`: `(0, 0, DEPTH / 2 - 1.5)` with
`DEPTH = 10`. -/
def PeriodRoom.getEntryPosition : QVec3 := ⟨0, 0, 10 / 2 - 1.5⟩

/-- Which room is active, mirroring the `currentRoom` string field of
`RoomState` (`"hall" | "period"`). -/
inductive CurrentRoom where
  | hall
  | period
deriving DecidableEq

/-- The `RoomState` record of `RoomManager.ts`. -/
structure RoomState where
  currentRoom : CurrentRoom
  activePeriodRoom : Option PeriodRoom
  visitedDoorIds : Finset String
deriving DecidableEq

/-- The observable state of a `RoomManager` together with its
collaborators: the reentrancy flag, the hall subtree visibility
(`hallGroup.visible`), the player position (`player.setPosition`
teleports it), and the list of period-room objects currently attached
to the engine scene (`engine.add` / `engine.remove`). -/
structure ManagerState where
  state : RoomState
  isTransitioning : Bool
  hallVisible : Bool
  playerPosition : QVec3
  scene : List PeriodRoom
deriving DecidableEq

/-- The state at startup: `currentRoom: "hall"`, no active period room,
empty visited set, flag down, hall visible, player at the hall spawn
`(0, 0, 5)` (the `startPosition` given in `main.ts`). -/
def initialState : ManagerState :=
  { state :=
      { currentRoom := CurrentRoom.hall
        activePeriodRoom := none
        visitedDoorIds := ∅ }
    isTransitioning := false
    hallVisible := true
    playerPosition := ⟨0, 0, 5⟩
    scene := [] }

/-- `RoomManager.enterPeriodRoom(periode)`: returns unchanged while
`isTransitioning`; otherwise builds the `PeriodRoom`, attaches it,
hides the hall, teleports the player to the entry point, marks the id
visited, sets `currentRoom` to `"period"`, and (via the `finally`
block) lowers the flag.  The construction cannot throw in this model,
so the `finally` always leaves the flag down. -/
def enterPeriodRoom (m : ManagerState) (periode : Periode) : ManagerState :=
  if m.isTransitioning then m
  else
    let periodRoom : PeriodRoom := { periode := periode }
    { state :=
        { currentRoom := CurrentRoom.period
          activePeriodRoom := some periodRoom
          visitedDoorIds := insert periode.id m.state.visitedDoorIds }
      isTransitioning := false
      hallVisible := false
      playerPosition := PeriodRoom.getEntryPosition
      scene := m.scene ++ [periodRoom] }

/-- `RoomManager.exitToHall()`: a no-op when no period room is active;
otherwise detaches and disposes the room, clears the reference, shows
the hall, teleports the player to `(0, 0, 5)`, and sets `currentRoom`
to `"hall"`. -/
def exitToHall (m : ManagerState) : ManagerState :=
  match m.state.activePeriodRoom with
  | none => m
  | some room =>
      { state :=
          { currentRoom := CurrentRoom.hall
            activePeriodRoom := none
            visitedDoorIds := m.state.visitedDoorIds }
        isTransitioning := m.isTransitioning
        hallVisible := true
        playerPosition := ⟨0, 0, 5⟩
        scene := m.scene.erase room }

/-- `RoomManager.markDoorAsVisited(doorId)`. -/
def markDoorAsVisited (m : ManagerState) (doorId : String) : ManagerState :=
  { m with state := { m.state with visitedDoorIds := insert doorId m.state.visitedDoorIds } }

/-- `RoomManager.isInHall()`: `this.state.currentRoom === "hall"`. -/
def isInHall (m : ManagerState) : Bool :=
  decide (m.state.currentRoom = CurrentRoom.hall)

/-- `RoomManager.isInPeriodRoom()`: `this.state.currentRoom === "period"`. -/
def isInPeriodRoom (m : ManagerState) : Bool :=
  decide (m.state.currentRoom = CurrentRoom.period)

/-- One public operation on the room manager, for stating invariants
over arbitrary call sequences. -/
inductive Op where
  | enter (periode : Periode)
  | exit
  | markVisited (doorId : String)

/-- Apply one operation to a manager state. -/
def applyOp (m : ManagerState) (o : Op) : ManagerState :=
  match o with
  | Op.enter periode => enterPeriodRoom m periode
  | Op.exit => exitToHall m
  | Op.markVisited doorId => markDoorAsVisited m doorId

/-- Run a call sequence from the startup state. -/
def run (ops : List Op) : ManagerState :=
  ops.foldl applyOp initialState

/-- The room dimensions returned by `calculateRoomDimensions`. -/
structure RoomDimensions where
  width : ℚ
  depth : ℚ
  height : ℚ
deriving DecidableEq

/-- The `clamp(v, lo, hi) = max(lo, min(hi, v))` of the specification,
for comparison with the source formulas. -/
def clamp (v lo hi : ℚ) : ℚ := max lo (min hi v)

/-- `calculateRoomDimensions(formationCount, travailCount)` from
`main.ts`: `minSpacing = 3`, `widthMargin = 4`, `depthMargin = 7`,
width bounds `[14, 33]`, depth bounds `[11, 28]`, fixed height 5. -/
def calculateRoomDimensions (formationCount travailCount : ℕ) : RoomDimensions :=
  { width := max 14 (min 33 ((travailCount : ℚ) * 3 + 4))
    depth := max 11 (min 28 ((formationCount : ℚ) * 3 + 7))
    height := 5 }

/-- The two door categories. -/
inductive DoorType where
  | formation
  | travail

/-- The divisor of the side-wall (formation) spacing formula:
`Math.max(totalOfType, 1)`. -/
def formationDivisor (totalOfType : ℕ) : ℤ := max (totalOfType : ℤ) 1

/-- The divisor of the back-wall (travail) spacing formula:
`Math.max(totalOfType - 1, 1)` (JS subtraction, so `-1` at
`totalOfType = 0`). -/
def travailDivisor (totalOfType : ℕ) : ℤ := max ((totalOfType : ℤ) - 1) 1

/-- `calculateDoorPosition(type, index, totalOfType, roomWidth, roomDepth)`
from `main.ts`: formation doors sit on the left wall at
`x = -roomWidth / 2` with `z` stepping down from `roomDepth / 2 - 2.5`
by `(roomDepth - 5) / max(total, 1)`; travail doors sit on the back
wall at `z = -roomDepth / 2` with `x` stepping up from
`-(roomWidth - 4) / 2` by `(roomWidth - 4) / max(total - 1, 1)`. -/
noncomputable def calculateDoorPosition (type : DoorType) (index totalOfType : ℕ)
    (roomWidth roomDepth : ℝ) : Vec3 × ℝ :=
  match type with
  | DoorType.formation =>
      let leftWallX := -roomWidth / 2
      let availableDepth := roomDepth - 5
      let spacing := availableDepth / (formationDivisor totalOfType : ℝ)
      let startZ := roomDepth / 2 - 2.5
      let z := startZ - (index : ℝ) * spacing
      (⟨leftWallX, 0, z⟩, Real.pi / 2)
  | DoorType.travail =>
      let backWallZ := -roomDepth / 2
      let availableWidth := roomWidth - 4
      let spacing := availableWidth / (travailDivisor totalOfType : ℝ)
      let startX := -availableWidth / 2
      let x := startX + (index : ℝ) * spacing
      (⟨x, 0, backWallZ⟩, 0)

/-- The mode/ownership invariant of the room-transition state machine:
`currentRoom` is `"period"` exactly when a sub-room reference is held. -/
def RoomInvariant (m : ManagerState) : Prop :=
  m.state.currentRoom = CurrentRoom.period ↔ m.state.activePeriodRoom ≠ none

/-! Helper lemmas about the wraparound loops. -/

theorem wrapDown_le (d : ℝ) : wrapDown d ≤ Real.pi := by
  induction d using wrapDown.induct with
  | case1 d h ih =>
      rw [wrapDown, dif_pos h]
      exact ih
  | case2 d h =>
      rw [wrapDown, dif_neg h]
      exact le_of_not_lt h

theorem wrapDown_gt (d : ℝ) (hd : -Real.pi < d) : -Real.pi < wrapDown d := by
  induction d using wrapDown.induct with
  | case1 d h ih =>
      rw [wrapDown, dif_pos h]
      exact ih (by have := Real.pi_pos; linarith)
  | case2 d h =>
      rw [wrapDown, dif_neg h]
      exact hd

theorem wrapDown_congruent (d : ℝ) : ∃ k : ℤ, wrapDown d = d - 2 * Real.pi * k := by
  induction d using wrapDown.induct with
  | case1 d h ih =>
      obtain ⟨k, hk⟩ := ih
      refine ⟨k + 1, ?_⟩
      rw [wrapDown, dif_pos h, hk]
      push_cast
      ring
  | case2 d h =>
      refine ⟨0, ?_⟩
      rw [wrapDown, dif_neg h]
      push_cast
      ring

theorem wrapUp_ge (d : ℝ) : -Real.pi ≤ wrapUp d := by
  induction d using wrapUp.induct with
  | case1 d h ih =>
      rw [wrapUp, dif_pos h]
      exact ih
  | case2 d h =>
      rw [wrapUp, dif_neg h]
      exact le_of_not_lt h

theorem wrapUp_le (d : ℝ) (hd : d ≤ Real.pi) : wrapUp d ≤ Real.pi := by
  induction d using wrapUp.induct with
  | case1 d h ih =>
      rw [wrapUp, dif_pos h]
      exact ih (by have := Real.pi_pos; linarith)
  | case2 d h =>
      rw [wrapUp, dif_neg h]
      exact hd

theorem wrapUp_congruent (d : ℝ) : ∃ k : ℤ, wrapUp d = d + 2 * Real.pi * k := by
  induction d using wrapUp.induct with
  | case1 d h ih =>
      obtain ⟨k, hk⟩ := ih
      refine ⟨k + 1, ?_⟩
      rw [wrapUp, dif_pos h, hk]
      push_cast
      ring
  | case2 d h =>
      refine ⟨0, ?_⟩
      rw [wrapUp, dif_neg h]
      push_cast
      ring

theorem abs_wrapDiff_le (d : ℝ) : |wrapDiff d| ≤ Real.pi :=
  abs_le.mpr ⟨wrapUp_ge (wrapDown d), wrapUp_le (wrapDown d) (wrapDown_le d)⟩

theorem wrapDiff_congruent (d : ℝ) : ∃ k : ℤ, wrapDiff d = d + 2 * Real.pi * k := by
  obtain ⟨k₁, hk₁⟩ := wrapDown_congruent d
  obtain ⟨k₂, hk₂⟩ := wrapUp_congruent (wrapDown d)
  refine ⟨k₂ - k₁, ?_⟩
  rw [wrapDiff, hk₂, hk₁]
  push_cast
  ring

theorem wrapDown_zero : wrapDown (0 : ℝ) = 0 := by
  rw [wrapDown, dif_neg]
  exact not_lt.mpr (le_of_lt Real.pi_pos)

theorem wrapUp_zero : wrapUp (0 : ℝ) = 0 := by
  rw [wrapUp, dif_neg]
  exact not_lt.mpr (by have := Real.pi_pos; linarith)

theorem wrapDiff_zero : wrapDiff (0 : ℝ) = 0 := by
  rw [wrapDiff, wrapDown_zero, wrapUp_zero]

/-- C7: the angle smoother is idempotent at the target
(`lerpAngle t t s = t` for any step fraction `s`), and for current and
target angles in `(-π, π]` the wrapped difference it applies has
magnitude at most `π` and differs from the raw difference by an integer
multiple of `2π` (the repeated addition/subtraction of the two wrap
loops), i.e. it is the shortest signed arc. -/
theorem smoothAngle_idempotent_shortest_arc (t s a b : ℝ)
    (_ha₁ : -Real.pi < a) (_ha₂ : a ≤ Real.pi)
    (_hb₁ : -Real.pi < b) (_hb₂ : b ≤ Real.pi) :
    lerpAngle t t s = t ∧
    |wrapDiff (b - a)| ≤ Real.pi ∧
    ∃ k : ℤ, wrapDiff (b - a) = (b - a) + 2 * Real.pi * k := by
  refine ⟨?_, abs_wrapDiff_le _, wrapDiff_congruent _⟩
  rw [lerpAngle, sub_self, wrapDiff_zero, zero_mul, add_zero]

/-- Witness for C7 at `t = 1`, `s = 2`, `a = 0`, `b = 0`. -/
theorem smoothAngle_idempotent_shortest_arc_witness :
    lerpAngle 1 1 2 = 1 ∧ |wrapDiff ((0 : ℝ) - 0)| ≤ Real.pi :=
  ⟨(smoothAngle_idempotent_shortest_arc 1 2 0 0 (neg_lt_zero.mpr Real.pi_pos)
      Real.pi_nonneg (neg_lt_zero.mpr Real.pi_pos) Real.pi_nonneg).1,
   (smoothAngle_idempotent_shortest_arc 1 2 0 0 (neg_lt_zero.mpr Real.pi_pos)
      Real.pi_nonneg (neg_lt_zero.mpr Real.pi_pos) Real.pi_nonneg).2.1⟩

/-- C2 counterexample: at `delta = 1` the camera-position smoothing of
`Player.updateCamera` applies lerp factor `5 * 1 = 5`, not clamped to 1:
from camera `(0,0,0)` with target pose `(0,3,5)` (the `immediate`
result), the smoothed position lands at `(0,15,25)`, far beyond the
target — impossible if the factor were clamped to 1. -/
theorem camera_lerp_unclamped_cex :
    updateCameraPos ⟨0, 0, 0⟩ ⟨0, 0, 0⟩ 0 1 false = ⟨0, 15, 25⟩ ∧
    updateCameraPos ⟨0, 0, 0⟩ ⟨0, 0, 0⟩ 0 1 true = ⟨0, 3, 5⟩ ∧
    ¬ ((15 : ℝ) ≤ 3) := by
  refine ⟨?_, ?_, by norm_num⟩
  all_goals simp [updateCameraPos, lerpVec]
  all_goals norm_num

/-- C2 amended: the angle interpolations of the player update
(`lerpAngle`, used for character facing and camera orbit angle) do
clamp the smoothing factor `rate * delta` at 1 — for any factor `t ≥ 1`
the result equals the factor-1 result, and for `t ≥ 0` the applied step
never exceeds the wrapped difference — but the camera-position
smoothing of `updateCamera` passes the unclamped factor `5 * delta` to
`Vector3.lerp`, so for any `delta > 1/5` the camera position overshoots
the target pose. -/
theorem angle_lerp_clamped_camera_lerp_unclamped :
    (∀ a b t : ℝ, 1 ≤ t → lerpAngle a b t = lerpAngle a b 1) ∧
    (∀ a b t : ℝ, 0 ≤ t → |lerpAngle a b t - a| ≤ |wrapDiff (b - a)|) ∧
    (∀ (pos cam : Vec3) (angle delta : ℝ), 1 / 5 < delta → cam.y < pos.y + 3 →
      pos.y + 3 < (updateCameraPos pos cam angle delta false).y) := by
  refine ⟨?_, ?_, ?_⟩
  · intro a b t ht
    rw [lerpAngle, lerpAngle, min_eq_right ht, min_self]
  · intro a b t ht
    have habs : |min t 1| ≤ 1 :=
      abs_le.mpr ⟨le_trans (by norm_num) (le_min ht zero_le_one), min_le_right t 1⟩
    calc |lerpAngle a b t - a| = |wrapDiff (b - a)| * |min t 1| := by
          rw [lerpAngle, add_sub_cancel_left, abs_mul]
      _ ≤ |wrapDiff (b - a)| * 1 := mul_le_mul_of_nonneg_left habs (abs_nonneg _)
      _ = |wrapDiff (b - a)| := mul_one _
  · intro pos cam angle delta h5 hdiff
    simp only [updateCameraPos, lerpVec, Bool.false_eq_true, if_false]
    nlinarith [hdiff, h5]

/-- Witness for the amended C2: the clamped angle lerp at factor 2 and
the camera overshoot at `delta = 1` from camera `(0,0,0)` below its
target height 3. -/
theorem angle_lerp_clamped_camera_lerp_unclamped_witness :
    lerpAngle 0 1 2 = lerpAngle 0 1 1 ∧
    (0 : ℝ) + 3 < (updateCameraPos ⟨0, 0, 0⟩ ⟨0, 0, 0⟩ 0 1 false).y :=
  ⟨angle_lerp_clamped_camera_lerp_unclamped.1 0 1 2 one_le_two,
   angle_lerp_clamped_camera_lerp_unclamped.2.2 ⟨0, 0, 0⟩ ⟨0, 0, 0⟩ 0 1
     (by norm_num) (by norm_num)⟩

/-- C5: the computed room dimensions equal the specification's
`clamp` formulas (`width = clamp(n2 * 3 + 4, 14, 33)`,
`depth = clamp(n1 * 3 + 7, 11, 28)`, fixed height 5); at zero counts
they equal the configured minimums, and for large counts they saturate
at the configured maximums. -/
theorem room_dimensions_clamped (n1 n2 : ℕ) :
    (calculateRoomDimensions n1 n2).width = clamp ((n2 : ℚ) * 3 + 4) 14 33 ∧
    (calculateRoomDimensions n1 n2).depth = clamp ((n1 : ℚ) * 3 + 7) 11 28 ∧
    (calculateRoomDimensions n1 n2).height = 5 ∧
    (calculateRoomDimensions 0 0).width = 14 ∧
    (calculateRoomDimensions 0 0).depth = 11 ∧
    (10 ≤ n2 → (calculateRoomDimensions n1 n2).width = 33) ∧
    (7 ≤ n1 → (calculateRoomDimensions n1 n2).depth = 28) := by
  refine ⟨rfl, rfl, rfl, by norm_num [calculateRoomDimensions, min_def, max_def],
    by norm_num [calculateRoomDimensions, min_def, max_def], ?_, ?_⟩
  · intro h
    have h' : (33 : ℚ) ≤ (n2 : ℚ) * 3 + 4 := by
      have : (10 : ℚ) ≤ (n2 : ℚ) := by exact_mod_cast h
      linarith
    show max 14 (min 33 ((n2 : ℚ) * 3 + 4)) = 33
    rw [min_eq_left h', max_eq_right (by norm_num)]
  · intro h
    have h' : (28 : ℚ) ≤ (n1 : ℚ) * 3 + 7 := by
      have : (7 : ℚ) ≤ (n1 : ℚ) := by exact_mod_cast h
      linarith
    show max 11 (min 28 ((n1 : ℚ) * 3 + 7)) = 28
    rw [min_eq_left h', max_eq_right (by norm_num)]

/-- Witness for C5 at the saturation thresholds `n1 = 7`, `n2 = 10`. -/
theorem room_dimensions_clamped_witness :
    (calculateRoomDimensions 7 10).width = 33 ∧
    (calculateRoomDimensions 7 10).depth = 28 :=
  ⟨(room_dimensions_clamped 7 10).2.2.2.2.2.1 (by decide),
   (room_dimensions_clamped 7 10).2.2.2.2.2.2 (by decide)⟩

/-- C6: both door-placement spacing divisors are at least 1 (so the
formulas never divide by zero — in particular `max(total - 1, 1) = 1`
for a single back-wall door and `max(total, 1) = 1` for zero side-wall
doors), and a single travail door sits at `x = -availableWidth / 2`
with `availableWidth = roomWidth - 4`. -/
theorem door_placement_no_div_by_zero (total : ℕ) (w d : ℝ) :
    1 ≤ travailDivisor total ∧
    1 ≤ formationDivisor total ∧
    travailDivisor 1 = 1 ∧
    formationDivisor 0 = 1 ∧
    (calculateDoorPosition DoorType.travail 0 1 w d).1.x = -(w - 4) / 2 := by
  refine ⟨le_max_right _ _, le_max_right _ _, by decide, by decide, ?_⟩
  simp [calculateDoorPosition]

/-- C4: a call to `enterPeriodRoom` while the `isTransitioning` flag is
set returns with the entire manager state unchanged — no sub-room is
created or attached, no field is mutated, and (the function being
total) no error is thrown. -/
theorem enter_reentrant_noop (m : ManagerState) (periode : Periode)
    (h : m.isTransitioning = true) :
    enterPeriodRoom m periode = m := by
  rw [enterPeriodRoom, if_pos h]

/-- Witness for C4: a transitioning manager ignores a second enter. -/
theorem enter_reentrant_noop_witness :
    ({ initialState with isTransitioning := true } : ManagerState).isTransitioning = true ∧
    enterPeriodRoom { initialState with isTransitioning := true } ⟨"nxp"⟩
      = { initialState with isTransitioning := true } :=
  ⟨rfl, enter_reentrant_noop _ _ rfl⟩

/-- C3: from any non-transitioning state, `enterPeriodRoom(record)`
followed by `exitToHall()` leaves the player at the hall spawn
`(0, 0, 5)`, the hall subtree visible, no active sub-room, and
`record.id` in the visited-door set. -/
theorem enter_exit_round_trip (m : ManagerState) (periode : Periode)
    (h : m.isTransitioning = false) :
    (exitToHall (enterPeriodRoom m periode)).playerPosition = ⟨0, 0, 5⟩ ∧
    (exitToHall (enterPeriodRoom m periode)).hallVisible = true ∧
    (exitToHall (enterPeriodRoom m periode)).state.activePeriodRoom = none ∧
    periode.id ∈ (exitToHall (enterPeriodRoom m periode)).state.visitedDoorIds := by
  rw [enterPeriodRoom, if_neg (by simp [h])]
  refine ⟨rfl, rfl, rfl, ?_⟩
  show periode.id ∈ insert periode.id m.state.visitedDoorIds
  exact Finset.mem_insert_self _ _

/-- Witness for C3 from the startup state. -/
theorem enter_exit_round_trip_witness :
    (exitToHall (enterPeriodRoom initialState ⟨"ensicaen"⟩)).playerPosition = ⟨0, 0, 5⟩ ∧
    (exitToHall (enterPeriodRoom initialState ⟨"ensicaen"⟩)).hallVisible = true ∧
    (exitToHall (enterPeriodRoom initialState ⟨"ensicaen"⟩)).state.activePeriodRoom = none ∧
    "ensicaen" ∈ (exitToHall (enterPeriodRoom initialState ⟨"ensicaen"⟩)).state.visitedDoorIds :=
  enter_exit_round_trip initialState ⟨"ensicaen"⟩ rfl

theorem invariant_step (m : ManagerState) (o : Op) (h : RoomInvariant m) :
    RoomInvariant (applyOp m o) := by
  cases o with
  | enter periode =>
      rw [applyOp, enterPeriodRoom]
      by_cases ht : m.isTransitioning = true
      · rw [if_pos ht]
        exact h
      · rw [if_neg ht]
        simp [RoomInvariant]
  | exit =>
      cases hr : m.state.activePeriodRoom with
      | none =>
          have : applyOp m Op.exit = m := by
            rw [applyOp, exitToHall, hr]
          rw [this]
          exact h
      | some room =>
          have : applyOp m Op.exit = exitToHall m := rfl
          rw [this, exitToHall, hr]
          simp [RoomInvariant]
  | markVisited doorId =>
      simpa [applyOp, markDoorAsVisited, RoomInvariant] using h

theorem invariant_run (ops : List Op) : RoomInvariant (run ops) := by
  rw [run]
  have hgen : ∀ (l : List Op) (m : ManagerState),
      RoomInvariant m → RoomInvariant (l.foldl applyOp m) := by
    intro l
    induction l with
    | nil => intro m h; exact h
    | cons o l ih => intro m h; exact ih _ (invariant_step m o h)
  exact hgen ops initialState (by simp [RoomInvariant, initialState])

/-- C10: after any sequence of `enterPeriodRoom`, `exitToHall` and
`markDoorAsVisited` calls from the startup state, `isInPeriodRoom()`
holds exactly when an active sub-room reference exists, and
`isInHall()` exactly when none does. -/
theorem room_mode_iff_active_room (ops : List Op) :
    (isInPeriodRoom (run ops) = true ↔ (run ops).state.activePeriodRoom ≠ none) ∧
    (isInHall (run ops) = true ↔ (run ops).state.activePeriodRoom = none) := by
  have h := invariant_run ops
  rw [RoomInvariant] at h
  have hcases : (run ops).state.currentRoom = CurrentRoom.hall
      ↔ ¬ (run ops).state.currentRoom = CurrentRoom.period := by
    cases (run ops).state.currentRoom <;> simp
  constructor
  · rw [isInPeriodRoom, decide_eq_true_eq]
    exact h
  · rw [isInHall, decide_eq_true_eq, hcases, h, not_not]

theorem planar_distance_eq (p : Vec3) (ax az : ℝ) :
    distanceTo p ⟨ax, p.y, az⟩ = Real.sqrt ((p.x - ax) ^ 2 + (p.z - az) ^ 2) := by
  rw [distanceTo]
  norm_num

/-- C8: each anchor's `isNear` (door, project cube, teleporter) holds
exactly when the planar distance — the anchor's `y` replaced by the
query point's `y`, so neither height ever affects the result — is
strictly below the threshold, and a point at exactly the threshold
distance is classified not near. -/
theorem isNear_planar_strict (d : Door) (c : ProjectCube) (tp : Teleporter)
    (p : Vec3) (t : ℝ) :
    (d.isNear p t = true ↔
      Real.sqrt ((p.x - d.position.x) ^ 2 + (p.z - d.position.z) ^ 2) < t) ∧
    (c.isNear p t = true ↔
      Real.sqrt ((p.x - c.position.x) ^ 2 + (p.z - c.position.z) ^ 2) < t) ∧
    (tp.isNear p t = true ↔
      Real.sqrt ((p.x - tp.position.x) ^ 2 + (p.z - tp.position.z) ^ 2) < t) ∧
    (∀ y y' : ℝ,
      Door.isNear ⟨d.id, ⟨d.position.x, y, d.position.z⟩⟩ ⟨p.x, y', p.z⟩ t
        = d.isNear p t) ∧
    (Real.sqrt ((p.x - d.position.x) ^ 2 + (p.z - d.position.z) ^ 2) = t →
      d.isNear p t = false) := by
  refine ⟨?_, ?_, ?_, ?_, ?_⟩
  · rw [Door.isNear, decide_eq_true_eq, planar_distance_eq]
  · rw [ProjectCube.isNear, decide_eq_true_eq, planar_distance_eq]
  · rw [Teleporter.isNear, decide_eq_true_eq, planar_distance_eq]
  · intro y y'
    simp only [Door.isNear]
    rw [planar_distance_eq, planar_distance_eq p d.position.x d.position.z]
  · intro he
    simp only [Door.isNear, planar_distance_eq, he, decide_eq_false_iff_not]
    exact lt_irrefl t

/-- Witness for C8: anchor at the origin, query point `(3, 5, 4)` at
planar distance exactly 5 from it is not near for threshold 5. -/
theorem isNear_planar_strict_witness :
    Door.isNear ⟨"d", ⟨0, 0, 0⟩⟩ ⟨3, 5, 4⟩ 5 = false := by
  have h5 : Real.sqrt (((3 : ℝ) - 0) ^ 2 + ((4 : ℝ) - 0) ^ 2) = 5 := by
    rw [show ((3 : ℝ) - 0) ^ 2 + ((4 : ℝ) - 0) ^ 2 = 5 ^ 2 by norm_num]
    exact Real.sqrt_sq (by norm_num)
  exact (isNear_planar_strict ⟨"d", ⟨0, 0, 0⟩⟩ ⟨"c", ⟨0, 0, 0⟩⟩ ⟨⟨0, 0, 0⟩⟩
    ⟨3, 5, 4⟩ 5).2.2.2.2 h5

theorem foldl_overwrite_eq_find_last (pred : Door → Bool) (doors : List Door)
    (acc : Option Door) :
    doors.foldl (fun found door => if pred door then some door else found) acc
      = (doors.reverse.find? pred).or acc := by
  induction doors generalizing acc with
  | nil => simp
  | cons x l ih =>
      simp only [List.foldl_cons, List.reverse_cons]
      rw [ih, List.find?_append]
      cases h : pred x <;> simp [h, Option.or_assoc, List.find?]

/-- C1 counterexample: with two doors both in range, the per-frame scan
selects the second (last-registered) door, not the first: the loop
overwrites `foundDoor` on every near door. -/
theorem doorScan_not_first_cex :
    Door.isNear ⟨"d0", ⟨0, 0, 0⟩⟩ ⟨1 / 2, 0, 0⟩ 2.5 = true ∧
    Door.isNear ⟨"d1", ⟨1, 0, 0⟩⟩ ⟨1 / 2, 0, 0⟩ 2.5 = true ∧
    doorScan [⟨"d0", ⟨0, 0, 0⟩⟩, ⟨"d1", ⟨1, 0, 0⟩⟩] ⟨1 / 2, 0, 0⟩
      = some ⟨"d1", ⟨1, 0, 0⟩⟩ ∧
    (⟨"d1", ⟨1, 0, 0⟩⟩ : Door) ≠ ⟨"d0", ⟨0, 0, 0⟩⟩ := by
  have h0 : Door.isNear ⟨"d0", ⟨0, 0, 0⟩⟩ ⟨1 / 2, 0, 0⟩ 2.5 = true := by
    rw [Door.isNear, decide_eq_true_eq, planar_distance_eq,
      Real.sqrt_lt' (by norm_num)]
    norm_num
  have h1 : Door.isNear ⟨"d1", ⟨1, 0, 0⟩⟩ ⟨1 / 2, 0, 0⟩ 2.5 = true := by
    rw [Door.isNear, decide_eq_true_eq, planar_distance_eq,
      Real.sqrt_lt' (by norm_num)]
    norm_num
  refine ⟨h0, h1, ?_, ?_⟩
  · rw [doorScan]
    simp only [List.foldl_cons, List.foldl_nil, h0, h1, if_true]
  · intro hcontra
    have : "d1" = "d0" := congrArg Door.id hcontra
    simp at this

/-- C1 amended: the single door selected by the per-frame proximity
scan (highlighted candidate, used on the 'enter' key) is the LAST
anchor in iteration order among those in range — equivalently the first
near door of the reversed registration order — because the scan
overwrites its candidate on every near door and does not break. -/
theorem doorScan_selects_last_near (doors : List Door) (p : Vec3) :
    doorScan doors p = doors.reverse.find? (fun d => d.isNear p 2.5) := by
  rw [doorScan, foldl_overwrite_eq_find_last, Option.or_none]

/-- C9: when the collision checker rejects the candidate position on a
moving frame (nonzero direction), only the position is frozen — the new
character facing is still the angle-smoothed step toward the movement
target, and the facing and camera orbit angle equal those of the same
frame run without any collision checker. -/
theorem collision_rejection_freezes_position_only (s : PState) (mx mz delta : ℝ)
    (checker : Vec3 → Bool)
    (hlen : 0 < vecLength (moveDirection s.cameraAngle mx mz))
    (hblock : checker (candidatePosition s mx mz delta) = true) :
    (update s mx mz true (some checker) delta).position = s.position ∧
    (update s mx mz true (some checker) delta).characterFacing =
      lerpAngle s.characterFacing
        (targetFacing s.cameraAngle mx mz (normalize (moveDirection s.cameraAngle mx mz)))
        (10 * delta) ∧
    (update s mx mz true (some checker) delta).characterFacing =
      (update s mx mz true none delta).characterFacing ∧
    (update s mx mz true (some checker) delta).cameraAngle =
      (update s mx mz true none delta).cameraAngle := by
  simp only [update, if_true, if_pos hlen, hblock, if_false]
  exact ⟨trivial, trivial, trivial, trivial⟩

/-- Witness for C9: a forward-moving frame with an always-true
collision checker keeps the player at the origin while the camera
angle matches the unblocked run. -/
theorem collision_rejection_freezes_position_only_witness :
    (update ⟨⟨0, 0, 0⟩, 0, 0, ⟨0, 0, 0⟩⟩ 0 (-1) true (some (fun _ => true)) 1).position
      = (⟨0, 0, 0⟩ : Vec3) ∧
    (update ⟨⟨0, 0, 0⟩, 0, 0, ⟨0, 0, 0⟩⟩ 0 (-1) true (some (fun _ => true)) 1).cameraAngle
      = (update ⟨⟨0, 0, 0⟩, 0, 0, ⟨0, 0, 0⟩⟩ 0 (-1) true none 1).cameraAngle := by
  have hlen : (0 : ℝ) < vecLength (moveDirection (0 : ℝ) 0 (-1)) := by
    rw [moveDirection, vecLength]
    refine Real.sqrt_pos.mpr ?_
    norm_num
  exact ⟨(collision_rejection_freezes_position_only
      ⟨⟨0, 0, 0⟩, 0, 0, ⟨0, 0, 0⟩⟩ 0 (-1) 1 (fun _ => true) hlen rfl).1,
    (collision_rejection_freezes_position_only
      ⟨⟨0, 0, 0⟩, 0, 0, ⟨0, 0, 0⟩⟩ 0 (-1) 1 (fun _ => true) hlen rfl).2.2.2⟩

end CV3D
